import Mathlib

/- Verification development for the unionfs layer/inode engine
   (graph/drivers/unionfs/layer.c): a shallow embedding of the data model
   and of the operations alloc_inode, get_layer, ref_inode, deref_inode,
   delete_inode, create_layer, remove_layer, set_upper, unset_upper and
   init_layers, followed by theorems about their behavior.  The inode and
   layer heaps are made explicit (ids stand for the C pointers); the
   string-keyed hashtable collaborator (hash.c) is modeled as an
   association list with map semantics. -/

/-- Model of ht_get: first binding for the key, if any. -/
def assocGet {K V : Type} [DecidableEq K] : List (K × V) → K → Option V
  | [], _ => none
  | (k, v) :: tl, key => if k = key then some v else assocGet tl key

/-- Model of ht_set: insert, overwriting an existing binding. -/
def assocSet {K V : Type} [DecidableEq K] : List (K × V) → K → V → List (K × V)
  | [], key, v => [(key, v)]
  | (k, w) :: tl, key, v => if k = key then (k, v) :: tl else (k, w) :: assocSet tl key v

/-- Model of ht_remove. -/
def assocRemove {K V : Type} [DecidableEq K] : List (K × V) → K → List (K × V)
  | [], _ => []
  | (k, w) :: tl, key => if k = key then tl else (k, w) :: assocRemove tl key

/-- In-place update of the value bound to a key (a C mutation through a pointer). -/
def assocUpdate {K V : Type} [DecidableEq K] : List (K × V) → K → (V → V) → List (K × V)
  | [], _, _ => []
  | (k, w) :: tl, key, f => if k = key then (k, f w) :: tl else (k, w) :: assocUpdate tl key f

/-- Split a character list at every occurrence of sep. -/
def splitChars (sep : Char) : List Char → List (List Char)
  | [] => [[]]
  | c :: cs =>
    if c = sep then [] :: splitChars sep cs
    else
      match splitChars sep cs with
      | [] => [[c]]
      | s :: ss => (c :: s) :: ss

/-- The nonempty slash-separated segments of a path. -/
def segsOf (p : String) : List String :=
  ((splitChars '/' p.data).map (fun cs => String.mk cs)).filter (fun s => ¬ s = "")

def joinSegs : List String → String
  | [] => ""
  | [s] => s
  | s :: tl => s ++ "/" ++ joinSegs tl

/-- POSIX dirname, on the absolute paths this engine passes it (the
remaining path handed out by get_layer always starts with a slash). -/
def dirname (p : String) : String :=
  match (segsOf p).dropLast with
  | [] => "/"
  | segs => "/" ++ joinSegs segs

/-- POSIX basename on the same domain; basename of the root is the root. -/
def basename (p : String) : String :=
  match (segsOf p).getLast? with
  | some s => s
  | none => "/"

/-- strchr: characters before the first sep, and the suffix from the first
sep onward (the C pointer strchr returns), if the sep occurs at all. -/
def splitFirst (sep : Char) : List Char → List Char × Option (List Char)
  | [] => ([], none)
  | c :: cs =>
    if c = sep then ([], some (c :: cs))
    else
      let r := splitFirst sep cs
      (c :: r.1, r.2)

abbrev InodeId := Nat
abbrev LayerId := Nat

/-- struct inode (layer.c usage).  Timestamps, uid/gid and the per-inode
mutex are omitted: they are environment values never consulted by the
operations verified here.  The FILE handle f is modeled by the flag
fileOpen (a tmpfile was opened and not yet closed). -/
structure Inode where
  name : String
  mode : Nat
  ref : Int
  deleted : Bool
  parent : Option InodeId
  child : Option InodeId
  next : Option InodeId
  layer : LayerId
  fileOpen : Bool
  deriving DecidableEq

/-- struct layer: parent pointer, the path-to-inode index (children), the
root inode and the upper flag. -/
structure Layer where
  parent : Option LayerId
  children : List (String × InodeId)
  root : InodeId
  upper : Bool
  deriving DecidableEq

/-- Process state: inode heap, layer heap (ids stand for C pointers) and
the global layer_hash registry mapping layer ids to layers. -/
structure Engine where
  inodes : List (InodeId × Inode)
  layers : List (LayerId × Layer)
  layer_hash : List (String × LayerId)
  nextInode : InodeId
  nextLayer : LayerId
  deriving DecidableEq

/-- Errno values the engine produces (ENOMEM stands for any allocation
failure). -/
inductive Errno where
  | ENOENT
  | EEXIST
  | ENOMEM
  deriving DecidableEq

/-- Result of a fallible call: the returned value or the errno set. -/
inductive Res (α : Type) where
  | ok : α → Res α
  | error : Errno → Res α
  deriving DecidableEq

def S_IFREG : Nat := 0o100000
def S_IFDIR : Nat := 0o040000

def getInode (e : Engine) (i : InodeId) : Option Inode := assocGet e.inodes i

def getLayerById (e : Engine) (lid : LayerId) : Option Layer := assocGet e.layers lid

def updateInode (e : Engine) (i : InodeId) (f : Inode → Inode) : Engine :=
  { e with inodes := assocUpdate e.inodes i f }

def updateLayer (e : Engine) (lid : LayerId) (f : Layer → Layer) : Engine :=
  { e with layers := assocUpdate e.layers lid f }

/-- alloc_inode (layer.c:28): fresh inode with ref 1, named by the basename,
with a backing tmpfile exactly for regular files; linked as the parent's
first child, then child and next are cleared (lines 88-89 run after the
link step, so the new inode never keeps the old first child as sibling);
finally indexed in the layer's children map under the full path.  The
parent field is only assigned when a parent is given (line 78). -/
def alloc_inode (e : Engine) (parent : Option InodeId) (name : String) (mode : Nat) (lid : LayerId) : Engine × InodeId :=
  let i := e.nextInode
  let ino : Inode :=
    { name := basename name
      mode := mode
      ref := 1
      deleted := false
      parent := parent
      child := none
      next := none
      layer := lid
      fileOpen := (mode &&& S_IFREG) != 0 }
  let e1 :=
    match parent with
    | some pid => updateInode e pid (fun p => { p with child := some i })
    | none => e
  let e2 := { e1 with inodes := assocSet e1.inodes i ino, nextInode := i + 1 }
  let e3 := updateLayer e2 lid (fun l => { l with children := assocSet l.children name i })
  (e3, i)

/-- get_layer (layer.c:116): the first segment after the leading slash is
the layer id, looked up in layer_hash; the remaining path is the suffix
from the next slash onward, or the root path when there is no next
slash. -/
def get_layer (e : Engine) (path : String) : Option (LayerId × String) :=
  let rest := path.data.drop 1
  let r := splitFirst '/' rest
  let key := String.mk r.1
  let newPath :=
    match r.2 with
    | some cs => String.mk cs
    | none => "/"
  match assocGet e.layer_hash key with
  | some lid => some (lid, newPath)
  | none => none

/-- The chain of layers the while loop of ref_inode walks, following
parent pointers from the addressed layer; fuel bounds the walk (the C
loop relies on the layer graph being acyclic). -/
def chainFrom (e : Engine) : Nat → LayerId → List (LayerId × Layer)
  | 0, _ => []
  | fuel + 1, lid =>
    match assocGet e.layers lid with
    | none => []
    | some l =>
      (lid, l) ::
        (match l.parent with
         | none => []
         | some p => chainFrom e fuel p)

/-- The body of ref_inode's while loop (layer.c:178-199): return the first
layer's match for the remaining path; while no parent-directory candidate
has been found, record the first layer whose index has the parent
directory together with that layer. -/
def walkLoop (rest dir : String) : List (LayerId × Layer) → Option (InodeId × LayerId) → Option InodeId × Option (InodeId × LayerId)
  | [], pc => (none, pc)
  | (lid, l) :: tl, pc =>
    match assocGet l.children rest with
    | some i => (some i, pc)
    | none =>
      let pcNew :=
        match pc with
        | some q => some q
        | none =>
          match assocGet l.children dir with
          | some p => some (p, lid)
          | none => none
      walkLoop rest dir tl pcNew

/-- ref_inode after a successful get_layer: walk the chain; on a match,
increment its ref and return it; otherwise create in the candidate layer
when requested, else fail with ENOENT. -/
def refInodeCore (e : Engine) (lid : LayerId) (rest : String) (create : Bool) (mode : Nat) : Engine × Res InodeId :=
  match walkLoop rest (dirname rest) (chainFrom e e.layers.length lid) none with
  | (some i, _) => (updateInode e i (fun ino => { ino with ref := ino.ref + 1 }), Res.ok i)
  | (none, pc) =>
    if create then
      match pc with
      | some (p, plid) =>
        let r := alloc_inode e (some p) rest mode plid
        (r.1, Res.ok r.2)
      | none => (e, Res.error Errno.ENOENT)
    else (e, Res.error Errno.ENOENT)

/-- ref_inode (layer.c:155): resolve the layer and remaining path, then
resolve or create the inode.  Every failure leaves errno ENOENT. -/
def ref_inode (e : Engine) (path : String) (create : Bool) (mode : Nat) : Engine × Res InodeId :=
  match get_layer e path with
  | none => (e, Res.error Errno.ENOENT)
  | some (lid, rest) => refInodeCore e lid rest create mode

/-- deref_inode (layer.c:227): decrement the reference count.  Nothing
else happens: no underflow check and no reclamation. -/
def deref_inode (e : Engine) (i : InodeId) : Engine :=
  updateInode e i (fun ino => { ino with ref := ino.ref - 1 })

/-- delete_inode (layer.c:237): set the deleted flag. -/
def delete_inode (e : Engine) (i : InodeId) : Engine :=
  updateInode e i (fun ino => { ino with deleted := true })

/-- The tail of create_layer once the id and parent checks passed:
allocate the layer (oomLayer models calloc failing), allocate its root
inode into it (oomRoot models that allocation failing; the partially
built layer is freed and nothing observable remains), drop the implicit
reference on the root, and register the layer.  The root mode is
0o777 &&& S_IFDIR, i.e. 0, exactly as in the source (line 276). -/
def createLayerBody (e : Engine) (id : String) (plid : Option LayerId) (oomLayer oomRoot : Bool) : Engine × Res Unit :=
  if oomLayer then (e, Res.error Errno.ENOMEM)
  else if oomRoot then (e, Res.error Errno.ENOMEM)
  else
    let lid := e.nextLayer
    let l0 : Layer := { parent := plid, children := [], root := 0, upper := false }
    let e1 := { e with layers := assocSet e.layers lid l0, nextLayer := e.nextLayer + 1 }
    let ra := alloc_inode e1 none "/" (0o777 &&& S_IFDIR) lid
    let e2 := updateLayer ra.1 lid (fun l => { l with root := ra.2 })
    let e3 := deref_inode e2 ra.2
    ({ e3 with layer_hash := assocSet e3.layer_hash id lid }, Res.ok ())

/-- create_layer (layer.c:242): EEXIST on a duplicate id, ENOENT on an
unregistered parent id (the source's pointer comparison with the empty
string literal is always true for a given parent), then the body. -/
def create_layer (e : Engine) (id : String) (parent_id : Option String) (oomLayer oomRoot : Bool) : Engine × Res Unit :=
  match assocGet e.layer_hash id with
  | some _ => (e, Res.error Errno.EEXIST)
  | none =>
    match parent_id with
    | some pid =>
      match assocGet e.layer_hash pid with
      | none => (e, Res.error Errno.ENOENT)
      | some plid => createLayerBody e id (some plid) oomLayer oomRoot
    | none => createLayerBody e id none oomLayer oomRoot

/-- remove_layer (layer.c:300): drop the registry entry, nothing else. -/
def remove_layer (e : Engine) (id : String) : Engine × Res Unit :=
  ({ e with layer_hash := assocRemove e.layer_hash id }, Res.ok ())

/-- set_upper (layer.c:310). -/
def set_upper (e : Engine) (id : String) : Engine × Res Unit :=
  match assocGet e.layer_hash id with
  | none => (e, Res.error Errno.ENOENT)
  | some lid => (updateLayer e lid (fun l => { l with upper := true }), Res.ok ())

/-- unset_upper (layer.c:327). -/
def unset_upper (e : Engine) (id : String) : Engine × Res Unit :=
  match assocGet e.layer_hash id with
  | none => (e, Res.error Errno.ENOENT)
  | some lid => (updateLayer e lid (fun l => { l with upper := false }), Res.ok ())

/-- init_layers (layer.c:343): the fresh process state. -/
def init_layers : Engine :=
  { inodes := [], layers := [], layer_hash := [], nextInode := 0, nextLayer := 0 }

/-- State after init_layers and create_layer("base", null). -/
def e_base : Engine := (create_layer init_layers "base" none false false).1

/-- e_base after creating the directory /etc inside the base layer. -/
def eEtc : Engine := (ref_inode e_base "/base/etc" true (S_IFDIR ||| 0o755)).1

/-- eEtc with a child layer "top" of "base" registered. -/
def eC3 : Engine := (create_layer eEtc "top" (some "base") false false).1

/-- e_base after creating /x in base, marking it deleted and releasing the
only reference: ref is 0 and deleted is true, the spec's reclamation
condition. -/
def eC2 : Engine := deref_inode (delete_inode (ref_inode e_base "/base/x" true (S_IFREG ||| 0o644)).1 1) 1

/-- The root inode a fresh layer gets (mode 0o777 &&& S_IFDIR, ref already
dropped to 0 by create_layer). -/
def rootBase : Inode :=
  { name := "/", mode := 0, ref := 0, deleted := false, parent := none,
    child := none, next := none, layer := 0, fileOpen := false }

/-- The /etc directory inode of eEtc and eC3. -/
def etcI : Inode :=
  { name := "etc", mode := S_IFDIR ||| 0o755, ref := 1, deleted := false,
    parent := some 0, child := none, next := none, layer := 0, fileOpen := false }

/-- The base layer of eC3. -/
def baseL : Layer :=
  { parent := none, children := [("/", 0), ("/etc", 1)], root := 0, upper := false }

/-- The top layer of eC3. -/
def topL : Layer :=
  { parent := some 0, children := [("/", 2)], root := 2, upper := false }

/-- A hand-built two-layer state in which the path /x is indexed in both
the base layer and its child layer (ref_inode never produces such a state
itself since it has no copy-up, but nothing precludes it). -/
def shRootB : Inode :=
  { name := "/", mode := 0, ref := 0, deleted := false, parent := none,
    child := some 1, next := none, layer := 0, fileOpen := false }

def shXB : Inode :=
  { name := "x", mode := S_IFREG ||| 0o644, ref := 1, deleted := false,
    parent := some 0, child := none, next := none, layer := 0, fileOpen := true }

def shRootT : Inode :=
  { name := "/", mode := 0, ref := 0, deleted := false, parent := none,
    child := some 3, next := none, layer := 1, fileOpen := false }

def shXT : Inode :=
  { name := "x", mode := S_IFREG ||| 0o644, ref := 2, deleted := false,
    parent := some 2, child := none, next := none, layer := 1, fileOpen := true }

def shBaseL : Layer :=
  { parent := none, children := [("/", 0), ("/x", 1)], root := 0, upper := false }

def shTopL : Layer :=
  { parent := some 0, children := [("/", 2), ("/x", 3)], root := 2, upper := true }

def eSh : Engine :=
  { inodes := [(0, shRootB), (1, shXB), (2, shRootT), (3, shXT)],
    layers := [(0, shBaseL), (1, shTopL)],
    layer_hash := [("base", 0), ("top", 1)],
    nextInode := 4, nextLayer := 2 }

/-- Lookup after an insert: the inserted binding for the inserted key,
the old bindings elsewhere. -/
theorem assocGet_set {K V : Type} [DecidableEq K] (m : List (K × V)) (k q : K) (v : V) :
    assocGet (assocSet m k v) q = if k = q then some v else assocGet m q := by
  induction m with
  | nil => simp [assocSet, assocGet]
  | cons a tl ih =>
    obtain ⟨ka, va⟩ := a
    by_cases h1 : ka = k <;> by_cases h2 : k = q <;>
      simp_all [assocSet, assocGet]

/-- Lookup after an in-place update. -/
theorem assocGet_update {K V : Type} [DecidableEq K] (m : List (K × V)) (k q : K) (f : V → V) :
    assocGet (assocUpdate m k f) q = if k = q then (assocGet m q).map f else assocGet m q := by
  induction m with
  | nil => simp [assocUpdate, assocGet]
  | cons a tl ih =>
    obtain ⟨ka, va⟩ := a
    by_cases h1 : ka = k <;> by_cases h2 : k = q <;>
      simp_all [assocUpdate, assocGet]

theorem assocGet_length_pos {K V : Type} [DecidableEq K] {m : List (K × V)} {k : K} {v : V}
    (h : assocGet m k = some v) : 0 < m.length := by
  cases m with
  | nil => simp [assocGet] at h
  | cons a tl => simp

/-- The chain the walk traverses starts at the addressed layer. -/
theorem chainFrom_head (e : Engine) (fuel : Nat) (lid : LayerId) (l : Layer)
    (hf : 0 < fuel) (hl : assocGet e.layers lid = some l) :
    ∃ tl, chainFrom e fuel lid = (lid, l) :: tl := by
  cases fuel with
  | zero => exact absurd hf (by simp)
  | succ n =>
    exact ⟨(match l.parent with | none => [] | some p => chainFrom e n p),
      by simp [chainFrom, hl]⟩

/-- Every layer on the walked chain is a layer of the heap. -/
theorem mem_chainFrom (e : Engine) :
    ∀ (fuel : Nat) (lid : LayerId) (q : LayerId × Layer),
      q ∈ chainFrom e fuel lid → assocGet e.layers q.1 = some q.2 := by
  intro fuel
  induction fuel with
  | zero => intro lid q h; simp [chainFrom] at h
  | succ n ih =>
    intro lid q h
    simp only [chainFrom] at h
    cases hl : assocGet e.layers lid with
    | none => rw [hl] at h; simp at h
    | some l =>
      rw [hl] at h
      rcases List.mem_cons.mp h with h | h
      · subst h; exact hl
      · cases hp : l.parent with
        | none => rw [hp] at h; simp at h
        | some p => rw [hp] at h; exact ih p q h

/-- Once a parent-directory candidate is recorded it is kept: the walk
returns the first candidate found. -/
theorem walkLoop_pc_some (rest dir : String) :
    ∀ (chain : List (LayerId × Layer)) (q : InodeId × LayerId),
      (walkLoop rest dir chain (some q)).2 = some q := by
  intro chain
  induction chain with
  | nil => intro q; simp [walkLoop]
  | cons a tl ih =>
    intro q
    obtain ⟨lid, l⟩ := a
    simp only [walkLoop]
    cases h : assocGet l.children rest with
    | some i => simp
    | none => simpa using ih q

/-- The walk finds no inode exactly when no layer of the chain indexes
the remaining path. -/
theorem walkLoop_fst_none (rest dir : String) :
    ∀ (chain : List (LayerId × Layer)) (pc : Option (InodeId × LayerId)),
      (walkLoop rest dir chain pc).1 = none ↔
        ∀ q ∈ chain, assocGet q.2.children rest = none := by
  intro chain
  induction chain with
  | nil => intro pc; simp [walkLoop]
  | cons a tl ih =>
    intro pc
    obtain ⟨lid, l⟩ := a
    simp only [walkLoop]
    cases h : assocGet l.children rest with
    | some i => simp [h]
    | none => simp [h, ih]

/-- When the whole chain misses the remaining path, the walk ends without
a candidate exactly when no layer of the chain indexes the parent
directory. -/
theorem walkLoop_snd_none (rest dir : String) :
    ∀ (chain : List (LayerId × Layer)),
      (∀ q ∈ chain, assocGet q.2.children rest = none) →
      ((walkLoop rest dir chain none).2 = none ↔
        ∀ q ∈ chain, assocGet q.2.children dir = none) := by
  intro chain
  induction chain with
  | nil => intro h; simp [walkLoop]
  | cons a tl ih =>
    intro h
    obtain ⟨lid, l⟩ := a
    have hrest : assocGet l.children rest = none := h (lid, l) (by simp)
    simp only [walkLoop, hrest]
    cases hd : assocGet l.children dir with
    | some p => simp [walkLoop_pc_some, hd]
    | none =>
      have := ih (fun q hq => h q (List.mem_cons_of_mem _ hq))
      simp [hd, this]

/-- A prefix of the chain in which neither the remaining path nor the
parent directory is indexed contributes nothing to the walk. -/
theorem walkLoop_append (rest dir : String) :
    ∀ (pre tl : List (LayerId × Layer)),
      (∀ q ∈ pre, assocGet q.2.children rest = none ∧ assocGet q.2.children dir = none) →
      walkLoop rest dir (pre ++ tl) none = walkLoop rest dir tl none := by
  intro pre
  induction pre with
  | nil => intro tl h; simp
  | cons a ptl ih =>
    intro tl h
    obtain ⟨lid, l⟩ := a
    obtain ⟨h1, h2⟩ := h (lid, l) (by simp)
    simp only [List.cons_append, walkLoop, h1, h2]
    exact ih tl (fun q hq => h q (List.mem_cons_of_mem _ hq))

/-- A chain that misses the remaining path everywhere leaves an already
recorded candidate untouched. -/
theorem walkLoop_miss_pc (rest dir : String) :
    ∀ (chain : List (LayerId × Layer)) (q : InodeId × LayerId),
      (∀ p ∈ chain, assocGet p.2.children rest = none) →
      walkLoop rest dir chain (some q) = (none, some q) := by
  intro chain
  induction chain with
  | nil => intro q h; simp [walkLoop]
  | cons a tl ih =>
    intro q h
    obtain ⟨lid, l⟩ := a
    have hrest : assocGet l.children rest = none := h (lid, l) (by simp)
    simp only [walkLoop, hrest]
    exact ih q (fun p hp => h p (List.mem_cons_of_mem _ hp))

/-- ref_inode reduces to the core once the layer id resolved. -/
theorem ref_inode_eq_core (e : Engine) (path : String) (create : Bool) (mode : Nat)
    (lid : LayerId) (rest : String) (hget : get_layer e path = some (lid, rest)) :
    ref_inode e path create mode = refInodeCore e lid rest create mode := by
  simp [ref_inode, hget]

/-- ref_inode on an unknown layer id fails with ENOENT and changes
nothing. -/
theorem ref_inode_no_layer (e : Engine) (path : String) (create : Bool) (mode : Nat)
    (hget : get_layer e path = none) :
    ref_inode e path create mode = (e, Res.error Errno.ENOENT) := by
  simp [ref_inode, hget]

/-- When the addressed layer itself indexes the remaining path, the walk
returns its entry at once and its reference count is incremented. -/
theorem refInodeCore_found (e : Engine) (lid : LayerId) (rest : String) (create : Bool)
    (mode : Nat) (l : Layer) (i : InodeId)
    (hl : assocGet e.layers lid = some l) (hi : assocGet l.children rest = some i) :
    refInodeCore e lid rest create mode =
      (updateInode e i (fun ino => { ino with ref := ino.ref + 1 }), Res.ok i) := by
  obtain ⟨tl, htl⟩ := chainFrom_head e e.layers.length lid l (assocGet_length_pos hl) hl
  simp [refInodeCore, htl, walkLoop, hi]

/-- C4: for every path indexed in the addressed, registered layer,
ref_inode without create returns exactly that inode, with its reference
count greater by exactly 1 and no other field changed, and changes no
other inode. -/
theorem C4_ref_increment (e : Engine) (path rest : String) (lid : LayerId) (l : Layer)
    (i : InodeId) (ino : Inode) (mode : Nat)
    (hget : get_layer e path = some (lid, rest))
    (hl : assocGet e.layers lid = some l)
    (hi : assocGet l.children rest = some i)
    (hino : getInode e i = some ino) :
    (ref_inode e path false mode).2 = Res.ok i ∧
    getInode (ref_inode e path false mode).1 i = some { ino with ref := ino.ref + 1 } ∧
    ∀ j, j ≠ i → getInode (ref_inode e path false mode).1 j = getInode e j := by
  rw [ref_inode_eq_core e path false mode lid rest hget,
    refInodeCore_found e lid rest false mode l i hl hi]
  refine ⟨rfl, ?_, ?_⟩
  · simp only [getInode, updateInode, assocGet_update, if_pos rfl]
    rw [getInode] at hino
    simp [hino]
  · intro j hj
    simp only [getInode, updateInode, assocGet_update]
    rw [if_neg (fun h => hj h.symm)]

/-- C1: when the addressed layer and one of its ancestors both index the
remaining path, ref_inode returns the addressed (descendant) layer's
inode: the walk returns the first match, so the closer entry shadows the
ancestor's. -/
theorem C1_shadowing (e : Engine) (path rest : String) (lid aid : LayerId) (l al : Layer)
    (i j : InodeId) (ino : Inode) (mode : Nat)
    (hget : get_layer e path = some (lid, rest))
    (hl : assocGet e.layers lid = some l)
    (hi : assocGet l.children rest = some i)
    (hanc : (aid, al) ∈ chainFrom e e.layers.length lid)
    (hne : aid ≠ lid)
    (hj : assocGet al.children rest = some j)
    (hino : getInode e i = some ino) :
    (ref_inode e path false mode).2 = Res.ok i ∧
    getInode (ref_inode e path false mode).1 i = some { ino with ref := ino.ref + 1 } := by
  rw [ref_inode_eq_core e path false mode lid rest hget,
    refInodeCore_found e lid rest false mode l i hl hi]
  refine ⟨rfl, ?_⟩
  simp only [getInode, updateInode, assocGet_update, if_pos rfl]
  rw [getInode] at hino
  simp [hino]

/-- C7: create_layer fails with EEXIST on an already registered id, and
with ENOENT when the given parent id is unregistered. -/
theorem C7_create_layer_errors (e : Engine) (id pid : String) (popt : Option String)
    (o1 o2 : Bool) :
    ((assocGet e.layer_hash id).isSome →
      (create_layer e id popt o1 o2).2 = Res.error Errno.EEXIST) ∧
    (assocGet e.layer_hash id = none → assocGet e.layer_hash pid = none →
      (create_layer e id (some pid) o1 o2).2 = Res.error Errno.ENOENT) := by
  constructor
  · intro h
    rcases Option.isSome_iff_exists.mp h with ⟨lid, hl⟩
    simp [create_layer, hl]
  · intro h1 h2
    simp [create_layer, h1, h2]

/-- C8 (amended): deref_inode decrements the reference count
unconditionally, even past zero, with no detection; nothing else in the
state changes. -/
theorem C8_amended_silent_decrement (e : Engine) (i : InodeId) (ino : Inode)
    (h : getInode e i = some ino) :
    getInode (deref_inode e i) i = some { ino with ref := ino.ref - 1 } ∧
    (∀ j, j ≠ i → getInode (deref_inode e i) j = getInode e j) ∧
    (deref_inode e i).layers = e.layers ∧
    (deref_inode e i).layer_hash = e.layer_hash := by
  refine ⟨?_, ?_, rfl, rfl⟩
  · simp only [getInode, deref_inode, updateInode, assocGet_update, if_pos rfl]
    rw [getInode] at h
    simp [h]
  · intro j hj
    simp only [getInode, deref_inode, updateInode, assocGet_update]
    rw [if_neg (fun hh => hj hh.symm)]

/-- C8 (counterexample): the root inode of a fresh layer has ref 0; a
release on it silently drives the count to -1 instead of being flagged. -/
theorem C8_counterexample :
    (getInode e_base 0).map Inode.ref = some 0 ∧
    (getInode (deref_inode e_base 0) 0).map Inode.ref = some (-1) := by decide

/-- C9: whenever create_layer returns an error, the state (in particular
the layer registry) is unchanged, so resolution addressed to a layer id
that was unknown before the call still fails with ENOENT. -/
theorem C9_error_frame (e : Engine) (id : String) (popt : Option String) (o1 o2 : Bool)
    (err : Errno) (h : (create_layer e id popt o1 o2).2 = Res.error err) :
    (create_layer e id popt o1 o2).1 = e ∧
    ∀ path create mode, get_layer e path = none →
      (ref_inode (create_layer e id popt o1 o2).1 path create mode).2 = Res.error Errno.ENOENT := by
  have h1 : (create_layer e id popt o1 o2).1 = e := by
    cases hid : assocGet e.layer_hash id with
    | some lid => simp [create_layer, hid]
    | none =>
      cases popt with
      | none =>
        cases o1 <;> cases o2 <;>
          simp_all [create_layer, createLayerBody, hid]
      | some pid =>
        cases hp : assocGet e.layer_hash pid with
        | none => simp [create_layer, hid, hp]
        | some plid =>
          cases o1 <;> cases o2 <;>
            simp_all [create_layer, createLayerBody, hid, hp]
  refine ⟨h1, ?_⟩
  intro path create mode hgl
  rw [h1, ref_inode_no_layer e path create mode hgl]

/-- C10: ref_inode without create never touches the registry or any
layer's index; on failure the state is unchanged, and on success the only
change is the returned inode's reference count, incremented by one. -/
theorem C10_readonly_frame (e : Engine) (path : String) (mode : Nat) :
    (ref_inode e path false mode).1.layer_hash = e.layer_hash ∧
    (ref_inode e path false mode).1.layers = e.layers ∧
    (∀ err, (ref_inode e path false mode).2 = Res.error err →
      (ref_inode e path false mode).1 = e) ∧
    ∀ i, (ref_inode e path false mode).2 = Res.ok i →
      (∀ j, j ≠ i → getInode (ref_inode e path false mode).1 j = getInode e j) ∧
      ∀ ino, getInode e i = some ino →
        getInode (ref_inode e path false mode).1 i = some { ino with ref := ino.ref + 1 } := by
  cases hg : get_layer e path with
  | none =>
    rw [ref_inode_no_layer e path false mode hg]
    exact ⟨rfl, rfl, fun err h => rfl, fun i h => absurd h (by simp)⟩
  | some lr =>
    obtain ⟨lid, rest⟩ := lr
    rw [ref_inode_eq_core e path false mode lid rest hg]
    rcases hw : walkLoop rest (dirname rest) (chainFrom e e.layers.length lid) none with ⟨f, s⟩
    cases f with
    | none =>
      have hcore : refInodeCore e lid rest false mode = (e, Res.error Errno.ENOENT) := by
        simp [refInodeCore, hw]
      rw [hcore]
      exact ⟨rfl, rfl, fun err h => rfl, fun i h => absurd h (by simp)⟩
    | some i =>
      have hcore : refInodeCore e lid rest false mode =
          (updateInode e i (fun ino => { ino with ref := ino.ref + 1 }), Res.ok i) := by
        simp [refInodeCore, hw]
      rw [hcore]
      refine ⟨rfl, rfl, fun err h => absurd h (by simp), ?_⟩
      intro i2 h
      have hi2 : i = i2 := by simpa using h
      subst hi2
      constructor
      · intro j hj
        simp only [getInode, updateInode, assocGet_update]
        rw [if_neg (fun hh => hj hh.symm)]
      · intro ino hino
        simp only [getInode, updateInode, assocGet_update, if_pos rfl]
        rw [getInode] at hino
        simp [hino]

/-- C5: ref_inode fails (with ENOENT, the only failure it produces) in
exactly three cases: the layer id is unregistered; the remaining path is
in no chain layer's index and create is false; or it is in no index,
create is true, and no chain layer indexes the parent directory. -/
theorem C5_notfound_iff (e : Engine) (path : String) (create : Bool) (mode : Nat) :
    (ref_inode e path create mode).2 = Res.error Errno.ENOENT ↔
      (get_layer e path = none ∨
       ∃ lid rest, get_layer e path = some (lid, rest) ∧
         (∀ q ∈ chainFrom e e.layers.length lid, assocGet q.2.children rest = none) ∧
         (create = false ∨
          ∀ q ∈ chainFrom e e.layers.length lid, assocGet q.2.children (dirname rest) = none)) := by
  cases hg : get_layer e path with
  | none =>
    rw [ref_inode_no_layer e path create mode hg]
    simp
  | some lr =>
    obtain ⟨lid, rest⟩ := lr
    rw [ref_inode_eq_core e path create mode lid rest hg]
    have key : (refInodeCore e lid rest create mode).2 = Res.error Errno.ENOENT ↔
        ((∀ q ∈ chainFrom e e.layers.length lid, assocGet q.2.children rest = none) ∧
         (create = false ∨
          ∀ q ∈ chainFrom e e.layers.length lid, assocGet q.2.children (dirname rest) = none)) := by
      rcases hw : walkLoop rest (dirname rest) (chainFrom e e.layers.length lid) none with ⟨f, s⟩
      cases f with
      | some i =>
        have hno : ¬ ∀ q ∈ chainFrom e e.layers.length lid,
            assocGet q.2.children rest = none := by
          intro hall
          have h2 := (walkLoop_fst_none rest (dirname rest)
            (chainFrom e e.layers.length lid) none).mpr hall
          rw [hw] at h2
          simp at h2
        have hres : (refInodeCore e lid rest create mode).2 = Res.ok i := by
          simp [refInodeCore, hw]
        rw [hres]
        constructor
        · intro hh; exact absurd hh (by simp)
        · intro hh; exact absurd hh.1 hno
      | none =>
        have hall : ∀ q ∈ chainFrom e e.layers.length lid,
            assocGet q.2.children rest = none :=
          (walkLoop_fst_none rest (dirname rest)
            (chainFrom e e.layers.length lid) none).mp (by rw [hw])
        cases create with
        | false =>
          have hres : (refInodeCore e lid rest false mode).2 = Res.error Errno.ENOENT := by
            simp [refInodeCore, hw]
          rw [hres]
          exact ⟨fun hh => ⟨hall, Or.inl rfl⟩, fun hh => rfl⟩
        | true =>
          cases s with
          | none =>
            have hdir : ∀ q ∈ chainFrom e e.layers.length lid,
                assocGet q.2.children (dirname rest) = none :=
              (walkLoop_snd_none rest (dirname rest)
                (chainFrom e e.layers.length lid) hall).mp (by rw [hw])
            have hres : (refInodeCore e lid rest true mode).2 = Res.error Errno.ENOENT := by
              simp [refInodeCore, hw]
            rw [hres]
            exact ⟨fun hh => ⟨hall, Or.inr hdir⟩, fun hh => rfl⟩
          | some q =>
            obtain ⟨p, plid⟩ := q
            have hdir : ¬ ∀ q ∈ chainFrom e e.layers.length lid,
                assocGet q.2.children (dirname rest) = none := by
              intro habs
              have h2 := (walkLoop_snd_none rest (dirname rest)
                (chainFrom e e.layers.length lid) hall).mpr habs
              rw [hw] at h2
              simp at h2
            have hres : (refInodeCore e lid rest true mode).2 =
                Res.ok (alloc_inode e (some p) rest mode plid).2 := by
              simp [refInodeCore, hw]
            rw [hres]
            constructor
            · intro hh; exact absurd hh (by simp)
            · rintro ⟨h1, h2 | h2⟩
              · exact absurd h2 (by decide)
              · exact absurd h2 hdir
    rw [key]
    constructor
    · intro hh
      exact Or.inr ⟨lid, rest, rfl, hh.1, hh.2⟩
    · rintro (hh | ⟨lid2, rest2, heq, h1, h2⟩)
      · exact absurd hh (by simp)
      · simp only [Option.some.injEq, Prod.mk.injEq] at heq
        obtain ⟨he1, he2⟩ := heq
        subst he1
        subst he2
        exact ⟨h1, h2⟩

/-- C2 (evaluation at the failing input): after /base/x is created, marked
deleted and fully released (ref 0 while deleted), nothing is reclaimed:
the inode is still indexed in its layer, still the root's child, its
backing file is still open, and a later ref_inode still returns it. -/
theorem C2_eval :
    (getInode eC2 1).map (fun ino => (ino.ref, ino.deleted, ino.fileOpen)) = some (0, true, true) ∧
    (getLayerById eC2 0).map (fun l => assocGet l.children "/x") = some (some 1) ∧
    (getInode eC2 0).map Inode.child = some (some 1) ∧
    (ref_inode eC2 "/base/x" false 0).2 = Res.ok 1 := by decide

/-- C6 (counterexample): after init and create_layer("base", null), the
call resolve-inode("/base/etc/conf", true, regular-file-mode) fails with
ENOENT instead of succeeding: only the root path is indexed in the fresh
layer, so the parent directory /etc has no index entry anywhere. -/
theorem C6_counterexample :
    (ref_inode e_base "/base/etc/conf" true (S_IFREG ||| 0o644)).2 =
      Res.error Errno.ENOENT := by decide

/-- C6 (amended): the one-shot create of /base/etc/conf fails with ENOENT;
after the parent directory is first created via
resolve-inode("/base/etc", true, directory-mode), the same call succeeds
and returns an inode with reference count 1. -/
theorem C6_amended_stepwise :
    (ref_inode e_base "/base/etc/conf" true (S_IFREG ||| 0o644)).2 =
      Res.error Errno.ENOENT ∧
    (ref_inode e_base "/base/etc" true (S_IFDIR ||| 0o755)).2 = Res.ok 1 ∧
    (ref_inode eEtc "/base/etc/conf" true (S_IFREG ||| 0o644)).2 = Res.ok 2 ∧
    (getInode (ref_inode eEtc "/base/etc/conf" true (S_IFREG ||| 0o644)).1 2).map Inode.ref =
      some 1 := by decide

/-- C3: when the remaining path exists nowhere on the chain and its parent
directory is first found in a proper ancestor of the addressed layer,
ref_inode with create allocates the new inode as a child of that parent
inode and indexes it under the full remaining path in that ancestor
layer; every other layer, in particular the addressed one, keeps its
index unchanged. -/
theorem C3_create_in_ancestor (e : Engine) (path rest : String) (lid aid : LayerId)
    (al : Layer) (pre post : List (LayerId × Layer)) (p : InodeId) (pino : Inode) (mode : Nat)
    (hget : get_layer e path = some (lid, rest))
    (hchain : chainFrom e e.layers.length lid = pre ++ (aid, al) :: post)
    (hproper : lid ≠ aid)
    (hnorest : ∀ q ∈ chainFrom e e.layers.length lid, assocGet q.2.children rest = none)
    (hnodir : ∀ q ∈ pre, assocGet q.2.children (dirname rest) = none)
    (hp : assocGet al.children (dirname rest) = some p)
    (hpino : getInode e p = some pino)
    (hpne : p ≠ e.nextInode) :
    (ref_inode e path true mode).2 = Res.ok e.nextInode ∧
    getInode (ref_inode e path true mode).1 e.nextInode =
      some { name := basename rest, mode := mode, ref := 1, deleted := false,
             parent := some p, child := none, next := none, layer := aid,
             fileOpen := (mode &&& S_IFREG) != 0 } ∧
    getInode (ref_inode e path true mode).1 p = some { pino with child := some e.nextInode } ∧
    getLayerById (ref_inode e path true mode).1 aid =
      some { al with children := assocSet al.children rest e.nextInode } ∧
    ∀ x, x ≠ aid → getLayerById (ref_inode e path true mode).1 x = getLayerById e x := by
  have hmem_aid : (aid, al) ∈ chainFrom e e.layers.length lid := by
    rw [hchain]
    exact List.mem_append_right _ (List.mem_cons_self _ _)
  have hal : assocGet e.layers aid = some al := mem_chainFrom e _ lid (aid, al) hmem_aid
  have hrest_al : assocGet al.children rest = none := hnorest _ hmem_aid
  have hw : walkLoop rest (dirname rest) (chainFrom e e.layers.length lid) none
      = (none, some (p, aid)) := by
    rw [hchain]
    rw [walkLoop_append rest (dirname rest) pre ((aid, al) :: post)
      (fun q hq => ⟨hnorest q (by rw [hchain]; exact List.mem_append_left _ hq), hnodir q hq⟩)]
    simp only [walkLoop, hrest_al, hp]
    exact walkLoop_miss_pc rest (dirname rest) post (p, aid)
      (fun q hq => hnorest q
        (by rw [hchain]; exact List.mem_append_right _ (List.mem_cons_of_mem _ hq)))
  rw [ref_inode_eq_core e path true mode lid rest hget]
  have hcore : refInodeCore e lid rest true mode =
      ((alloc_inode e (some p) rest mode aid).1,
        Res.ok (alloc_inode e (some p) rest mode aid).2) := by
    simp [refInodeCore, hw]
  rw [hcore]
  refine ⟨rfl, ?_, ?_, ?_, ?_⟩
  · simp [alloc_inode, updateLayer, updateInode, getInode, assocGet_set]
  · rw [getInode] at hpino
    simp [alloc_inode, updateLayer, updateInode, getInode, assocGet_set, assocGet_update,
      hpino, Ne.symm hpne]
  · simp [alloc_inode, updateLayer, updateInode, getLayerById, assocGet_update, hal]
  · intro x hx
    simp [alloc_inode, updateLayer, updateInode, getLayerById, assocGet_update, Ne.symm hx]

/-- Witness for C1 on a concrete two-layer state where /x is indexed both
in the addressed top layer and in its base ancestor: the top entry (id 3)
is returned, not the base one. -/
theorem C1_shadowing_witness :
    (ref_inode eSh "/top/x" false 0).2 = Res.ok 3 ∧
    getInode (ref_inode eSh "/top/x" false 0).1 3 = some { shXT with ref := shXT.ref + 1 } :=
  C1_shadowing eSh "/top/x" "/x" 1 0 shTopL shBaseL 3 1 shXT 0
    (by decide) (by decide) (by decide) (by decide) (by decide) (by decide) (by decide)

/-- Witness for C3: on eC3, /etc exists only in the base layer, /etc/conf
nowhere; creating /top/etc/conf allocates inode 3 under the base layer,
as a child of the /etc inode, and leaves the top layer untouched. -/
theorem C3_create_witness :
    (ref_inode eC3 "/top/etc/conf" true (S_IFREG ||| 0o644)).2 = Res.ok eC3.nextInode ∧
    getInode (ref_inode eC3 "/top/etc/conf" true (S_IFREG ||| 0o644)).1 eC3.nextInode =
      some { name := basename "/etc/conf", mode := S_IFREG ||| 0o644, ref := 1,
             deleted := false, parent := some 1, child := none, next := none, layer := 0,
             fileOpen := ((S_IFREG ||| 0o644) &&& S_IFREG) != 0 } ∧
    getInode (ref_inode eC3 "/top/etc/conf" true (S_IFREG ||| 0o644)).1 1 =
      some { etcI with child := some eC3.nextInode } ∧
    getLayerById (ref_inode eC3 "/top/etc/conf" true (S_IFREG ||| 0o644)).1 0 =
      some { baseL with children := assocSet baseL.children "/etc/conf" eC3.nextInode } ∧
    getLayerById (ref_inode eC3 "/top/etc/conf" true (S_IFREG ||| 0o644)).1 1 =
      getLayerById eC3 1 :=
  have h := C3_create_in_ancestor eC3 "/top/etc/conf" "/etc/conf" 1 0 baseL
    [(1, topL)] [] 1 etcI (S_IFREG ||| 0o644)
    (by decide) (by decide) (by decide) (by decide) (by decide) (by decide) (by decide) (by decide)
  ⟨h.1, h.2.1, h.2.2.1, h.2.2.2.1, h.2.2.2.2 1 (by decide)⟩

/-- Witness for C4: /etc is indexed in the base layer of eC3 with ref 1;
resolving /base/etc returns it with ref 2 and leaves inode 0 alone. -/
theorem C4_ref_increment_witness :
    (ref_inode eC3 "/base/etc" false 0).2 = Res.ok 1 ∧
    getInode (ref_inode eC3 "/base/etc" false 0).1 1 = some { etcI with ref := etcI.ref + 1 } ∧
    getInode (ref_inode eC3 "/base/etc" false 0).1 0 = getInode eC3 0 :=
  have h := C4_ref_increment eC3 "/base/etc" "/etc" 0 baseL 1 etcI 0
    (by decide) (by decide) (by decide) (by decide)
  ⟨h.1, h.2.1, h.2.2 0 (by decide)⟩

/-- Witness for C5: a path addressing an unregistered layer id fails with
ENOENT. -/
theorem C5_notfound_witness :
    (ref_inode e_base "/nolayer/x" false 0).2 = Res.error Errno.ENOENT :=
  (C5_notfound_iff e_base "/nolayer/x" false 0).mpr (Or.inl (by decide))

/-- Witness for C7: duplicating "base" fails with EEXIST; creating with a
missing parent fails with ENOENT. -/
theorem C7_create_layer_errors_witness :
    (create_layer e_base "base" none false false).2 = Res.error Errno.EEXIST ∧
    (create_layer e_base "y" (some "missing") false false).2 = Res.error Errno.ENOENT :=
  ⟨(C7_create_layer_errors e_base "base" "missing" none false false).1 (by decide),
   (C7_create_layer_errors e_base "y" "missing" (some "missing") false false).2
     (by decide) (by decide)⟩

/-- Witness for the amended C8: releasing the base root (ref 0) yields
ref -1 and changes nothing else. -/
theorem C8_amended_witness :
    getInode (deref_inode e_base 0) 0 = some { rootBase with ref := rootBase.ref - 1 } ∧
    getInode (deref_inode e_base 0) 5 = getInode e_base 5 ∧
    (deref_inode e_base 0).layers = e_base.layers ∧
    (deref_inode e_base 0).layer_hash = e_base.layer_hash :=
  have h := C8_amended_silent_decrement e_base 0 rootBase (by decide)
  ⟨h.1, h.2.1 5 (by decide), h.2.2.1, h.2.2.2⟩

/-- Witness for C9: the failing duplicate create of "base" leaves the
state unchanged, and resolution of an unknown layer id still fails. -/
theorem C9_error_frame_witness :
    (create_layer e_base "base" none false false).1 = e_base ∧
    (ref_inode (create_layer e_base "base" none false false).1 "/ghost/x" false 0).2 =
      Res.error Errno.ENOENT :=
  have h := C9_error_frame e_base "base" none false false Errno.EEXIST (by decide)
  ⟨h.1, h.2 "/ghost/x" false 0 (by decide)⟩

/-- Witness for C10: resolving /base/etc read-only on eC3 keeps the
registry and all layer indexes, leaves inode 0 alone and only bumps the
returned inode's ref. -/
theorem C10_readonly_frame_witness :
    (ref_inode eC3 "/base/etc" false 0).1.layer_hash = eC3.layer_hash ∧
    (ref_inode eC3 "/base/etc" false 0).1.layers = eC3.layers ∧
    getInode (ref_inode eC3 "/base/etc" false 0).1 0 = getInode eC3 0 ∧
    getInode (ref_inode eC3 "/base/etc" false 0).1 1 = some { etcI with ref := etcI.ref + 1 } :=
  have h := C10_readonly_frame eC3 "/base/etc" 0
  ⟨h.1, h.2.1, ((h.2.2.2 1 (by decide)).1 0 (by decide)),
   ((h.2.2.2 1 (by decide)).2 etcI (by decide))⟩
